import Mathlib

/-!
Verification development for the Chromebook RGB keyboard controller
(`gui/core/rgb_color.py`, `gui/hardware/controller.py`, `gui/effects/library.py`,
`gui/effects/manager.py`, `gui/utils/decorators.py`, `gui/utils/safe_subprocess.py`).

The Python sources are embedded shallowly: Python ints become `Int`, Python
floats become exact rationals extended with infinities and NaN, raised
exceptions become `Except` errors, and the external `ectool` process is an
oracle mapping an argv vector to a process outcome.  Mutation of `self` is
explicit state passing on a record type.
-/

namespace RGBKbd

/-! ## Python value and exception model (for `RGBColor._validate_component`) -/

/-- Exceptions that can arise from `int(float(value))` in Python.  Only
`ValueError` and `TypeError` are caught by `_validate_component`. -/
inductive PyErr where
  | valueError
  | typeError
  | overflowError
  deriving DecidableEq, Repr

/-- A Python float: a finite value (modelled exactly as a rational), one of the
two infinities, or NaN. -/
inductive PyFloat where
  | finite (q : ℚ)
  | inf
  | negInf
  | nan
  deriving DecidableEq, Repr

/-- Values that can be passed for a color component: ints, floats, strings
(numeric or not), `None`, or any other non-coercible object. -/
inductive PyVal where
  | int (n : ℤ)
  | float (f : PyFloat)
  | str (s : String)
  | pyNone
  | other
  deriving DecidableEq, Repr

/-- Digits-only string to a natural number (base 10). -/
def digitsVal (l : List Char) : ℕ :=
  l.foldl (fun a c => a * 10 + (c.toNat - 48)) 0

/-- Unsigned part of Python `float(str)`: decimal digits with an optional
fractional part, or the keywords `inf`, `infinity` and `nan`. -/
def parsePyFloatCore (l : List Char) : Option PyFloat :=
  if l = [ 'i', 'n', 'f' ] ∨ l = [ 'i', 'n', 'f', 'i', 'n', 'i', 't', 'y' ] then
    some PyFloat.inf
  else if l = [ 'n', 'a', 'n' ] then
    some PyFloat.nan
  else
    let intPart := l.takeWhile Char.isDigit
    let rest := l.dropWhile Char.isDigit
    match rest with
    | [] =>
        if intPart.isEmpty then none
        else some (PyFloat.finite (digitsVal intPart))
    | '.' :: frac =>
        if frac.all Char.isDigit ∧ ¬(intPart.isEmpty ∧ frac.isEmpty) then
          some (PyFloat.finite ((digitsVal intPart : ℚ) +
            (digitsVal frac : ℚ) / ((10 : ℚ) ^ frac.length)))
        else none
    | _ => none

/-- Negation on the extended float model. -/
def PyFloat.neg : PyFloat → PyFloat
  | .finite q => .finite (-q)
  | .inf => .negInf
  | .negInf => .inf
  | .nan => .nan

/-- Python `float(str)`: surrounding whitespace is ignored, case-insensitive,
with an optional sign.  Returns `none` where Python raises `ValueError`. -/
def parsePyFloat (s : String) : Option PyFloat :=
  let l := (s.trim.toLower).data
  match l with
  | '+' :: rest => parsePyFloatCore rest
  | '-' :: rest => (parsePyFloatCore rest).map PyFloat.neg
  | rest => parsePyFloatCore rest

/-- Python `float(value)` on the modelled value universe. -/
def pyFloatOf : PyVal → Except PyErr PyFloat
  | .int n => .ok (.finite n)
  | .float f => .ok f
  | .str s =>
      match parsePyFloat s with
      | some f => .ok f
      | none => .error .valueError
  | .pyNone => .error .typeError
  | .other => .error .typeError

/-- Truncation toward zero, which is what Python `int(float)` performs on a
finite float. -/
def ratTrunc (q : ℚ) : ℤ := q.num.tdiv q.den

/-- Python `int(f)` for a float `f`: truncates finite values, raises
`OverflowError` on the infinities and `ValueError` on NaN. -/
def pyIntOfFloat : PyFloat → Except PyErr ℤ
  | .finite q => .ok (ratTrunc q)
  | .inf => .error .overflowError
  | .negInf => .error .overflowError
  | .nan => .error .valueError

/-- Python `int(float(value))`, the expression inside the `try` block of
`RGBColor._validate_component`. -/
def pyCoerceInt (v : PyVal) : Except PyErr ℤ := do
  let f ← pyFloatOf v
  pyIntOfFloat f

/-- Embedding of `RGBColor._validate_component`: coerce via `int(float(value))`;
`ValueError` and `TypeError` are caught and default the component to `0`; the
result is clamped with `max(0, min(255, val))`.  Any other exception (such as
`OverflowError` from an infinite float) propagates. -/
def validateComponent (v : PyVal) : Except PyErr ℤ :=
  match pyCoerceInt v with
  | .ok n => .ok (max 0 (min 255 n))
  | .error .valueError => .ok 0
  | .error .typeError => .ok 0
  | .error e => .error e

/-- An `RGBColor` instance: three integer channel fields. -/
structure RGBColor where
  r : ℤ
  g : ℤ
  b : ℤ
  deriving DecidableEq, Repr

/-- Embedding of `RGBColor.__init__`: each component is validated in turn; an
uncaught exception from `_validate_component` propagates out of construction. -/
def mkRGBColor (r g b : PyVal) : Except PyErr RGBColor := do
  let r' ← validateComponent r
  let g' ← validateComponent g
  let b' ← validateComponent b
  .ok ⟨r', g', b'⟩

/-! ## Hex conversion (`RGBColor.to_hex` / `RGBColor.from_hex`) -/

/-- Lowercase hexadecimal digit character for `n < 16`. -/
def hexDigit (n : ℕ) : Char :=
  if n < 10 then Char.ofNat (48 + n) else Char.ofNat (87 + n)

/-- Two lowercase hex digits for a byte, the `{x:02x}` format for `x < 256`. -/
def byteHex (n : ℕ) : List Char := [ hexDigit (n / 16), hexDigit (n % 16) ]

/-- Embedding of `RGBColor.to_hex` for a validated color (channels in
`[0, 255]`): the string `#rrggbb` in lowercase hex. -/
def toHex (c : RGBColor) : String :=
  String.mk ('#' :: (byteHex c.r.toNat ++ byteHex c.g.toNat ++ byteHex c.b.toNat))

/-- Value of a lowercase hex digit character, `none` for anything the regex
class `[0-9a-f]` would reject. -/
def hexDigitVal (ch : Char) : Option ℕ :=
  if '0' ≤ ch ∧ ch ≤ '9' then some (ch.toNat - 48)
  else if 'a' ≤ ch ∧ ch ≤ 'f' then some (ch.toNat - 87)
  else none

/-- The clamp `max(0, min(255, val))` that `__init__` applies to an in-range
int argument. -/
def clampByte (n : ℤ) : ℤ := max 0 (min 255 n)

/-- Embedding of `RGBColor.from_hex` on the character list of the argument:
leading `#` characters are stripped, the remainder is lowercased, a 3-digit
form is doubled, and unless exactly six lowercase hex digits remain the result
defaults to black. -/
def fromHexData (l : List Char) : RGBColor :=
  let stripped := l.dropWhile (fun ch => ch == '#')
  let lowered := stripped.map Char.toLower
  let clean := if lowered.length = 3 then (lowered.map (fun ch => [ ch, ch ])).flatten else lowered
  match clean with
  | [ c1, c2, c3, c4, c5, c6 ] =>
      match hexDigitVal c1, hexDigitVal c2, hexDigitVal c3,
            hexDigitVal c4, hexDigitVal c5, hexDigitVal c6 with
      | some h1, some h2, some h3, some h4, some h5, some h6 =>
          ⟨clampByte ((16 * h1 + h2 : ℕ) : ℤ),
           clampByte ((16 * h3 + h4 : ℕ) : ℤ),
           clampByte ((16 * h5 + h6 : ℕ) : ℤ)⟩
      | _, _, _, _, _, _ => ⟨0, 0, 0⟩
  | _ => ⟨0, 0, 0⟩

/-- Embedding of `RGBColor.from_hex` on strings. -/
def fromHex (s : String) : RGBColor := fromHexData s.data

/-! ## Hardware controller (`gui/hardware/controller.py`)

The external privileged tool is abstracted by an oracle mapping the argv
vector handed to `subprocess.run` to a process outcome.  Every controller
operation returns its Python return value, the updated controller state, and
the list of argv vectors that actually reached `subprocess.run` during the
call (the execution log), so that "no command reached the Command Executor"
is the statement that the log is empty. -/

/-- Whitespace trimming on both ends of a character list. -/
def stripChars (l : List Char) : List Char :=
  ((l.dropWhile Char.isWhitespace).reverse.dropWhile Char.isWhitespace).reverse

/-- Python `str.strip()` with no argument: remove surrounding whitespace. -/
def pyStrip (s : String) : String := String.mk (stripChars s.data)

/-- Outcome of one `subprocess.run` invocation: a completed process with exit
code and decoded output, a timeout, a missing executable, or some other raised
exception. -/
inductive ProcOutcome where
  | completed (rc : ℤ) (stdout stderr : String)
  | timedOut
  | fileNotFound
  | raised (msg : String)

/-- The environment: what the external process does for a given argv vector. -/
def HWEnv : Type := List String → ProcOutcome

/-- Fixed path of the tool (`ECTOOL_EXECUTABLE`). -/
def ectoolExecutable : String := "/usr/local/bin/ectool"

/-- Per-method capability flags recorded by detection (the `capabilities`
dict). -/
structure Capabilities where
  ectool_present : Bool
  ectool_version_ok : Bool
  ectool_rgbkbd_functional : Bool
  ectool_rgbkbd_clear_functional : Bool
  ectool_rgbkbd_demo_off_functional : Bool
  ectool_pwmsetkblight_ok : Bool
  ectool_pwmgetkblight_ok : Bool
  ec_direct_access_ok : Bool
  deriving DecidableEq, Repr

/-- All-false capability record, the state at `HardwareController.__init__`. -/
def Capabilities.initial : Capabilities :=
  ⟨false, false, false, false, false, false, false, false⟩

/-- Mutable state of a `HardwareController` instance.  `NUM_ZONES = 4`,
`LEDS_PER_ZONE = 3`. -/
structure Ctrl where
  ectool_available : Bool
  ec_direct_available : Bool
  hardware_ready : Bool
  detection_complete : Bool
  preferred_control_method : Option String
  active_control_method : String
  capabilities : Capabilities
  current_brightness : ℤ
  zone_colors_cache : List RGBColor
  deriving DecidableEq, Repr

/-- Constant `NUM_ZONES`. -/
def NUM_ZONES : ℕ := 4

/-- Constant `LEDS_PER_ZONE`. -/
def LEDS_PER_ZONE : ℕ := 3

/-- State established by `HardwareController.__init__` (before the detection
thread has run). -/
def initCtrl (last_control_method : Option String) : Ctrl where
  ectool_available := false
  ec_direct_available := false
  hardware_ready := false
  detection_complete := false
  preferred_control_method := last_control_method
  active_control_method := "none"
  capabilities := Capabilities.initial
  current_brightness := 100
  zone_colors_cache := List.replicate NUM_ZONES ⟨0, 0, 0⟩

/-- Result triple of a controller call: Python return value, updated state,
and the argv vectors that reached `subprocess.run`. -/
def CtrlResult (α : Type) : Type := α × Ctrl × List (List String)

/-- Embedding of `HardwareController._run_ectool_cmd_internal`.  The
`safe_execute(max_attempts=2)` decorator retries only on a raised exception,
and the body catches every exception, so the decorator never fires and the
body semantics below are exact.  A `FileNotFoundError` from `subprocess.run`
clears `ectool_available` and the `ectool_present` capability. -/
def runEctoolCmdInternal (s : Ctrl) (env : HWEnv) (args : List String) :
    CtrlResult (Bool × String × String) :=
  let cmd := ectoolExecutable :: args
  if s.capabilities.ectool_present = false then
    ((false, "", "ectool executable not found"), s, [])
  else
    match env cmd with
    | .completed rc out err => ((decide (rc = 0), pyStrip out, pyStrip err), s, [ cmd ])
    | .timedOut => ((false, "", "Command timeout"), s, [ cmd ])
    | .fileNotFound =>
        ((false, "", ectoolExecutable ++ " not found"),
         { s with ectool_available := false,
                  capabilities := { s.capabilities with ectool_present := false } },
         [ cmd ])
    | .raised msg => ((false, "", msg), s, [ cmd ])

/-- Packed 24-bit color `(r << 16) | (g << 8) | b`; for `__init__`-validated
channels in `[0, 255]` the bitwise-or is plain addition. -/
def packedColor (c : RGBColor) : ℤ := c.r * 65536 + c.g * 256 + c.b

/-- Embedding of `_ec_direct_set_brightness` (an `ectool` wrapper). -/
def ecDirectSetBrightness (s : Ctrl) (env : HWEnv) (p : ℤ) :
    CtrlResult (Bool × String × String) :=
  runEctoolCmdInternal s env [ "pwmsetkblight", toString p ]

/-- The argv tail used to set one zone: `rgbkbd <startLed> <RGB> <RGB> <RGB>`
with `startLed = zone0 * LEDS_PER_ZONE`. -/
def zoneArgs (zone0 : ℕ) (c : RGBColor) : List String :=
  [ "rgbkbd", toString (zone0 * LEDS_PER_ZONE),
    toString (packedColor c), toString (packedColor c), toString (packedColor c) ]

/-- Embedding of `_ec_direct_set_zone_color` (an `ectool` wrapper). -/
def ecDirectSetZoneColor (s : Ctrl) (env : HWEnv) (zone0 : ℕ) (c : RGBColor) :
    CtrlResult (Bool × String × String) :=
  runEctoolCmdInternal s env (zoneArgs zone0 c)

/-- Embedding of `_ec_direct_set_all_leds_color` (an `ectool` wrapper): a
`rgbkbd clear <RGB>` command.  Note that it does not touch the zone-color
cache. -/
def ecDirectSetAllLedsColor (s : Ctrl) (env : HWEnv) (c : RGBColor) :
    CtrlResult (Bool × String × String) :=
  runEctoolCmdInternal s env [ "rgbkbd", "clear", toString (packedColor c) ]

/-- Embedding of `_ec_direct_attempt_stop_hardware_effects` (an `ectool`
wrapper): a `rgbkbd demo 0` command. -/
def ecDirectAttemptStop (s : Ctrl) (env : HWEnv) :
    CtrlResult (Bool × String × String) :=
  runEctoolCmdInternal s env [ "rgbkbd", "demo", "0" ]

/-- The clamp `SafeInputValidation.validate_integer(value, lo, hi, default)`
performs on an int argument. -/
def validateIntegerInt (n lo hi : ℤ) : ℤ := min hi (max lo n)

/-- Embedding of `HardwareController.set_brightness` for an integer argument:
validate/clamp, then dispatch through the active control method, updating the
cached brightness only on success. -/
def setBrightness (s : Ctrl) (env : HWEnv) (n : ℤ) : CtrlResult Bool :=
  let p := validateIntegerInt n 0 100
  if s.active_control_method = "ectool" then
    if s.capabilities.ectool_pwmsetkblight_ok = false then (false, s, [])
    else
      let ((ok, _, _), s1, log) := runEctoolCmdInternal s env [ "pwmsetkblight", toString p ]
      (ok, if ok then { s1 with current_brightness := p } else s1, log)
  else if s.active_control_method = "ec_direct" then
    let ((ok, _, _), s1, log) := ecDirectSetBrightness s env p
    (ok, if ok then { s1 with current_brightness := p } else s1, log)
  else
    (false, s, [])

/-- Embedding of `HardwareController.set_zone_color` (1-based zone index). -/
def setZoneColor (s : Ctrl) (env : HWEnv) (zone1 : ℤ) (c : RGBColor) : CtrlResult Bool :=
  if ¬(1 ≤ zone1 ∧ zone1 ≤ (NUM_ZONES : ℤ)) then (false, s, [])
  else
    let zone0 := (zone1 - 1).toNat
    if s.active_control_method = "ectool" then
      if s.capabilities.ectool_rgbkbd_functional = false then (false, s, [])
      else
        let ((ok, _, _), s1, log) := runEctoolCmdInternal s env (zoneArgs zone0 c)
        (ok,
         if ok then { s1 with zone_colors_cache := s1.zone_colors_cache.set zone0 c } else s1,
         log)
    else if s.active_control_method = "ec_direct" then
      let ((ok, _, _), s1, log) := ecDirectSetZoneColor s env zone0 c
      (ok,
       if ok then { s1 with zone_colors_cache := s1.zone_colors_cache.set zone0 c } else s1,
       log)
    else
      (false, s, [])

/-- Loop body of `set_zone_colors`: `for i, color_obj in enumerate(zone_colors)`
calling `set_zone_color(i + 1, color_obj)` and conjoining the successes
(the inter-command sleep has no modelled effect). -/
def setZoneColorsLoop (s : Ctrl) (env : HWEnv) (i : ℕ) :
    List RGBColor → CtrlResult Bool
  | [] => (true, s, [])
  | c :: rest =>
      let (ok1, s1, l1) := setZoneColor s env ((i : ℤ) + 1) c
      let (okr, s2, l2) := setZoneColorsLoop s1 env (i + 1) rest
      (ok1 && okr, s2, l1 ++ l2)

/-- Embedding of `HardwareController.set_zone_colors`: a list whose length is
not `NUM_ZONES` is rejected up front with no dispatch. -/
def setZoneColors (s : Ctrl) (env : HWEnv) (cs : List RGBColor) : CtrlResult Bool :=
  if cs.length ≠ NUM_ZONES then (false, s, [])
  else setZoneColorsLoop s env 0 cs

/-- Embedding of `HardwareController.set_all_leds_color`: under `ectool` a
one-shot `rgbkbd clear` is preferred when functional (falling back to per-zone
commands on failure); under `ec_direct` the wrapper is used and the cache is
updated on success. -/
def setAllLedsColor (s : Ctrl) (env : HWEnv) (c : RGBColor) : CtrlResult Bool :=
  if s.active_control_method = "ectool" then
    if s.capabilities.ectool_rgbkbd_clear_functional then
      let ((ok, _, _), s1, l1) :=
        runEctoolCmdInternal s env [ "rgbkbd", "clear", toString (packedColor c) ]
      if ok then
        (true, { s1 with zone_colors_cache := List.replicate NUM_ZONES c }, l1)
      else
        let (r, s2, l2) := setZoneColors s1 env (List.replicate NUM_ZONES c)
        (r, s2, l1 ++ l2)
    else
      setZoneColors s env (List.replicate NUM_ZONES c)
  else if s.active_control_method = "ec_direct" then
    let ((ok, _, _), s1, l1) := ecDirectSetAllLedsColor s env c
    (ok, if ok then { s1 with zone_colors_cache := List.replicate NUM_ZONES c } else s1, l1)
  else
    (false, s, [])

/-- Embedding of `HardwareController.clear_all_leds`. -/
def clearAllLeds (s : Ctrl) (env : HWEnv) : CtrlResult Bool :=
  setAllLedsColor s env ⟨0, 0, 0⟩

/-- Embedding of `HardwareController.attempt_stop_hardware_effects`.  Under
`ectool` every branch ends in `clear_all_leds` (which updates the cache on
success); under `ec_direct` a successful `demo 0` is followed by the raw
`_ec_direct_set_all_leds_color(RGBColor(0,0,0))` wrapper, which leaves the
cache untouched. -/
def attemptStopHardwareEffects (s : Ctrl) (env : HWEnv) : CtrlResult Bool :=
  if s.active_control_method = "ectool" then
    if s.capabilities.ectool_rgbkbd_demo_off_functional then
      let ((_, _, _), s1, l1) := runEctoolCmdInternal s env [ "rgbkbd", "demo", "0" ]
      let (r, s2, l2) := clearAllLeds s1 env
      (r, s2, l1 ++ l2)
    else
      clearAllLeds s env
  else if s.active_control_method = "ec_direct" then
    let ((ok, _, _), s1, l1) := ecDirectAttemptStop s env
    if ok then
      let ((ok2, _, _), s2, l2) := ecDirectSetAllLedsColor s1 env ⟨0, 0, 0⟩
      (ok2, s2, l1 ++ l2)
    else
      (false, s1, l1)
  else
    (false, s, [])

/-- Embedding of `HardwareController.is_operational`. -/
def isOperational (s : Ctrl) : Bool :=
  s.detection_complete && s.hardware_ready

/-- The fields of the `get_hardware_info` dictionary relevant here. -/
structure HardwareInfo where
  preferred_control_method : Option String
  active_control_method : String
  hardware_ready_flag : Bool
  current_brightness_cached : ℤ
  cached_zone_colors : List RGBColor
  deriving DecidableEq, Repr

/-- Embedding of `HardwareController.get_hardware_info` (the modelled
fields). -/
def getHardwareInfo (s : Ctrl) : HardwareInfo :=
  ⟨s.preferred_control_method, s.active_control_method, isOperational s,
   s.current_brightness, s.zone_colors_cache⟩

/-- Embedding of `_update_active_method_based_on_preference`: choose the new
active method from the preference and the recorded availability flags, then
recompute `hardware_ready`. -/
def updateActiveMethodBasedOnPreference (s : Ctrl) : Ctrl :=
  let newActive :=
    if s.preferred_control_method = some "ec_direct" then
      if s.ec_direct_available then "ec_direct"
      else if s.capabilities.ec_direct_access_ok then "ec_direct"
      else if s.ectool_available then "ectool"
      else "none"
    else if s.preferred_control_method = some "ectool" then
      if s.ectool_available then "ectool"
      else if s.ec_direct_available then "ec_direct"
      else if s.capabilities.ec_direct_access_ok then "ec_direct"
      else "none"
    else
      if s.ectool_available then "ectool"
      else if s.ec_direct_available then "ec_direct"
      else if s.capabilities.ec_direct_access_ok then "ec_direct"
      else "none"
  let ready :=
    if newActive = "ectool" then s.ectool_available
    else if newActive = "ec_direct" then s.capabilities.ec_direct_access_ok
    else false
  { s with active_control_method := newActive, hardware_ready := ready }

/-- First maximal run of decimal digits in a string, the
`re.search(r'(\d+)', ...)` used to parse `pwmgetkblight` output. -/
def findFirstNat (s : String) : Option ℕ :=
  let ds := (s.data.dropWhile (fun ch => ¬ ch.isDigit)).takeWhile Char.isDigit
  if ds.isEmpty then none else some (digitsVal ds)

/-- Embedding of `HardwareController._detect_ectool`: probe the binary, the
version command, the three `rgbkbd` sub-commands and the two brightness
commands, then combine the recorded capabilities into `ectool_available`.
`binaryPresent` models `Path(ECTOOL_EXECUTABLE).is_file()`. -/
def detectEctool (s : Ctrl) (env : HWEnv) (binaryPresent : Bool) : Ctrl :=
  let s := { s with ectool_available := false }
  if binaryPresent = false then
    { s with capabilities := { s.capabilities with ectool_present := false } }
  else
    let s := { s with capabilities := { s.capabilities with ectool_present := true } }
    let ((okVersion, _, _), s, _) := runEctoolCmdInternal s env [ "version" ]
    let s := { s with capabilities := { s.capabilities with ectool_version_ok := okVersion } }
    if okVersion = false then s
    else
      let ((okSingle, _, _), s, _) := runEctoolCmdInternal s env [ "rgbkbd", "0", "0" ]
      let s := { s with capabilities :=
        { s.capabilities with ectool_rgbkbd_functional := okSingle } }
      let ((okClear, _, _), s, _) := runEctoolCmdInternal s env [ "rgbkbd", "clear", "0" ]
      let s := { s with capabilities :=
        { s.capabilities with ectool_rgbkbd_clear_functional := okClear } }
      let ((okDemo, _, _), s, _) := runEctoolCmdInternal s env [ "rgbkbd", "demo", "0" ]
      let s := { s with capabilities :=
        { s.capabilities with ectool_rgbkbd_demo_off_functional := okDemo } }
      let ((okGet, outGet, _), s, _) := runEctoolCmdInternal s env [ "pwmgetkblight" ]
      let s :=
        if okGet then
          match findFirstNat outGet with
          | some nv =>
              { s with current_brightness := validateIntegerInt (nv : ℤ) 0 100,
                       capabilities := { s.capabilities with ectool_pwmgetkblight_ok := true } }
          | none => s
        else s
      let test := if s.capabilities.ectool_pwmgetkblight_ok then s.current_brightness else 50
      let ((okSet, _, _), s, _) := runEctoolCmdInternal s env [ "pwmsetkblight", toString test ]
      let s := { s with capabilities :=
        { s.capabilities with ectool_pwmsetkblight_ok := okSet } }
      { s with ectool_available :=
          s.capabilities.ectool_present && s.capabilities.ectool_version_ok &&
          (s.capabilities.ectool_rgbkbd_functional ||
            s.capabilities.ectool_rgbkbd_clear_functional) &&
          (s.capabilities.ectool_pwmgetkblight_ok && s.capabilities.ectool_pwmsetkblight_ok) }

/-- Embedding of `HardwareController._detect_ec_direct`: the direct-access
framework and availability flags simply mirror `ectool_available`. -/
def detectEcDirect (s : Ctrl) : Ctrl :=
  let s := { s with ec_direct_available := false,
                    capabilities := { s.capabilities with ec_direct_access_ok := false } }
  if s.ectool_available then
    { s with ec_direct_available := true,
             capabilities := { s.capabilities with ec_direct_access_ok := true } }
  else s

/-- Embedding of `_perform_hardware_detection`: run both probes, select the
active method, then signal completion. -/
def performHardwareDetection (s : Ctrl) (env : HWEnv) (binaryPresent : Bool) : Ctrl :=
  let s := detectEctool s env binaryPresent
  let s := detectEcDirect s
  let s := updateActiveMethodBasedOnPreference s
  { s with detection_complete := true }

/-- Run a sequence of dispatches through `_run_ectool_cmd_internal`, one
environment per call (the tool may behave differently on each invocation);
for each call, record its boolean result and how many argv vectors reached
`subprocess.run`. -/
def runDispatches (s : Ctrl) (args : List String) :
    List HWEnv → Ctrl × List (Bool × ℕ)
  | [] => (s, [])
  | env :: rest =>
      let ((ok, _, _), s1, log) := runEctoolCmdInternal s env args
      let (s2, results) := runDispatches s1 args rest
      (s2, (ok, log.length) :: results)

/-! ## Circuit breaker (`gui/utils/decorators.py`, class `CircuitBreaker`) -/

/-- State of a `CircuitBreaker` instance.  Times are rational seconds
(`time.monotonic`). -/
structure CircuitBreaker where
  failure_threshold : ℕ
  recovery_timeout : ℚ
  failure_count : ℕ
  last_failure_time : ℚ
  is_open : Bool
  deriving DecidableEq, Repr

/-- A fresh breaker, `CircuitBreaker.__init__` (defaults 5 and 30). -/
def CircuitBreaker.init (threshold : ℕ) (timeout : ℚ) : CircuitBreaker :=
  ⟨threshold, timeout, 0, 0, false⟩

/-- What the wrapped function does when actually invoked: return normally or
raise. -/
inductive CallOutcome where
  | success
  | failure
  deriving DecidableEq, Repr

/-- What the breaker wrapper does: reject with the `Circuit ... is open`
exception without invoking the function, return the function's result, or
re-raise the function's exception. -/
inductive CBResult where
  | rejected
  | ok
  | raised
  deriving DecidableEq, Repr

/-- One step of the breaker wrapper: result, whether the wrapped function was
invoked, and the updated breaker state. -/
structure CBStep where
  result : CBResult
  invoked : Bool
  state : CircuitBreaker
  deriving DecidableEq, Repr

/-- The part of `CircuitBreaker.__call__` after the open-circuit gate: invoke
the function; success resets the failure count and closes the breaker, failure
increments the count, stamps the failure time, opens the breaker at the
threshold, and re-raises. -/
def cbInvoke (cb : CircuitBreaker) (now : ℚ) : CallOutcome → CBStep
  | .success => ⟨.ok, true, { cb with failure_count := 0, is_open := false }⟩
  | .failure =>
      let fc := cb.failure_count + 1
      ⟨.raised, true,
       { cb with failure_count := fc, last_failure_time := now,
                 is_open := if cb.failure_threshold ≤ fc then true else cb.is_open }⟩

/-- Embedding of `CircuitBreaker.__call__`: while open and still inside the
recovery window the call is rejected by raising, without invoking the wrapped
function; after the window one half-open attempt is allowed. -/
def cbCall (cb : CircuitBreaker) (now : ℚ) (f : CallOutcome) : CBStep :=
  if cb.is_open then
    if cb.recovery_timeout < now - cb.last_failure_time then
      cbInvoke { cb with is_open := false } now f
    else
      ⟨.rejected, false, cb⟩
  else
    cbInvoke cb now f

/-! ## Command Executor (`gui/utils/safe_subprocess.py`, `run_command`) -/

/-- The closed error taxonomy raised by `run_command`. -/
inductive CmdError where
  | securityError (msg : String)
  | hardwareError (msg : String)
  | resourceError (msg : String)
  deriving DecidableEq, Repr

/-- A `subprocess.CompletedProcess` as returned by `run_command`. -/
structure CompletedProcess where
  returncode : ℤ
  stdout : String
  stderr : String
  deriving DecidableEq, Repr

/-- Embedding of `run_command`: validate the argv vector (non-empty, no
blank arguments), then run the process; a non-zero exit with `check=False`
returns the completed result, while timeouts, a missing executable, a
`check=True` failure or any other OS error raise. -/
def runCommand (cmd : List String) (outcome : ProcOutcome) (check : Bool) :
    Except CmdError CompletedProcess :=
  if cmd.isEmpty then
    .error (.securityError "Invalid command format: Command must be a non-empty list.")
  else if cmd.any (fun a => pyStrip a = "") then
    .error (.securityError "Command arguments cannot be empty or solely whitespace.")
  else
    match outcome with
    | .completed rc out err =>
        if check && decide (rc ≠ 0) then
          .error (.hardwareError "Command failed")
        else
          .ok ⟨rc, out, err⟩
    | .timedOut => .error (.hardwareError "Command timed out")
    | .fileNotFound => .error (.resourceError "Executable not found")
    | .raised msg => .error (.hardwareError msg)

/-! ## Effect manager thread lifecycle (`gui/effects/manager.py`)

`stop_current_effect` signals `stop_event`, joins the loop thread with
`join(timeout=2.0)`, logs a warning if the thread is still alive after the
timeout, and then drops the reference (`self.effect_thread = None`) and
proceeds regardless.  `start_effect` for an animated effect first calls
`stop_current_effect` and then starts a fresh thread.  The model tracks the
wall-clock delay each loop thread needs between the stop signal and its exit;
a thread whose delay exceeds the join timeout survives the join and stays
alive (leaked) when the next thread starts. -/

/-- An animation loop thread, characterised by how long after `stop_event` is
set it keeps running (hardware calls and frame sleeps bound this below but not
above the 2-second join timeout). -/
structure AnimThread where
  exitDelay : ℚ
  deriving DecidableEq, Repr

/-- The join timeout used by `stop_current_effect` (`join(timeout=2.0)`). -/
def joinTimeout : ℚ := 2

/-- Thread-lifecycle state of the `EffectManager`: the tracked loop thread, if
any, plus previously started threads that outlived their join timeout and are
still running. -/
structure MgrState where
  effect_thread : Option AnimThread
  leaked : List AnimThread
  deriving DecidableEq, Repr

/-- The manager right after `__init__`: no loop thread. -/
def initMgr : MgrState := ⟨none, []⟩

/-- Number of animation loop threads alive at this instant. -/
def aliveThreads (m : MgrState) : ℕ :=
  m.leaked.length + (match m.effect_thread with | some _ => 1 | none => 0)

/-- Embedding of `EffectManager.stop_current_effect` thread handling: join the
tracked thread with a bounded timeout; if it is still alive afterwards only a
warning is logged and the reference is dropped anyway. -/
def stopCurrentEffect (m : MgrState) : MgrState :=
  match m.effect_thread with
  | none => m
  | some t =>
      if t.exitDelay ≤ joinTimeout then { m with effect_thread := none }
      else { effect_thread := none, leaked := t :: m.leaked }

/-- Embedding of `EffectManager.start_effect` for an animated effect: stop the
current effect, then spawn and track the new loop thread. -/
def startEffect (m : MgrState) (t : AnimThread) : MgrState :=
  let m1 := stopCurrentEffect m
  { m1 with effect_thread := some t }

/-- A start or stop request issued to the manager. -/
inductive MgrOp where
  | start (t : AnimThread)
  | stop
  deriving DecidableEq, Repr

/-- Apply one request. -/
def applyMgrOp (m : MgrState) : MgrOp → MgrState
  | .start t => startEffect m t
  | .stop => stopCurrentEffect m

/-- Run a sequence of start/stop requests from a state. -/
def runMgrOps (m : MgrState) : List MgrOp → MgrState
  | [] => m
  | op :: rest => runMgrOps (applyMgrOp m op) rest

/-! ## Speed-to-delay mapping (`gui/effects/library.py`, `_get_delay`) -/

/-- Constant `MIN_ANIMATION_FRAME_DELAY` (0.01 seconds). -/
def MIN_ANIMATION_FRAME_DELAY : ℚ := 1 / 100

/-- Embedding of `EffectLibrary._get_delay`: `max(MIN_ANIMATION_FRAME_DELAY,
0.2 / speed)` with `base_delay = 0.2`. -/
def getDelay (speed : ℕ) : ℚ :=
  max MIN_ANIMATION_FRAME_DELAY ((1 / 5) / (speed : ℚ))

/-! ## Theorems -/

/-- Claim C9: the speed-to-delay mapping is monotonically non-increasing on
speeds `1 ≤ s1 ≤ s2 ≤ 10`, and every computed delay is at least the minimum
frame delay. -/
theorem c9_speed_delay_monotone (s1 s2 : ℕ) (h1 : 1 ≤ s1) (h12 : s1 ≤ s2) (h10 : s2 ≤ 10) :
    getDelay s2 ≤ getDelay s1 ∧ MIN_ANIMATION_FRAME_DELAY ≤ getDelay s2 := by
  have hpos : (0 : ℚ) < (s1 : ℚ) := by exact_mod_cast Nat.lt_of_lt_of_le Nat.zero_lt_one h1
  have hle : (s1 : ℚ) ≤ (s2 : ℚ) := by exact_mod_cast h12
  refine ⟨max_le_max le_rfl ?_, le_max_left _ _⟩
  gcongr

/-- Witness for C9 at speeds 2 and 7. -/
theorem c9_speed_delay_monotone_witness :
    getDelay 7 ≤ getDelay 2 ∧ MIN_ANIMATION_FRAME_DELAY ≤ getDelay 7 :=
  c9_speed_delay_monotone 2 7 (by decide) (by decide) (by decide)

/-- Claim C7: a color list whose length differs from `NUM_ZONES` makes
`set_zone_colors` return `False` with no command issued and the controller
state (in particular the cached zone colors) unchanged. -/
theorem c7_zone_count_mismatch_rejected (s : Ctrl) (env : HWEnv) (cs : List RGBColor)
    (h : cs.length ≠ NUM_ZONES) :
    (setZoneColors s env cs).1 = false ∧ (setZoneColors s env cs).2.1 = s ∧
    (setZoneColors s env cs).2.2 = [] := by
  simp [setZoneColors, h]

/-- Witness for C7 with a 2-element list. -/
theorem c7_zone_count_mismatch_rejected_witness :
    (setZoneColors (initCtrl none) (fun _ => ProcOutcome.timedOut) [ ⟨1, 2, 3⟩, ⟨4, 5, 6⟩ ]).1 = false ∧
    (setZoneColors (initCtrl none) (fun _ => ProcOutcome.timedOut) [ ⟨1, 2, 3⟩, ⟨4, 5, 6⟩ ]).2.1
      = initCtrl none ∧
    (setZoneColors (initCtrl none) (fun _ => ProcOutcome.timedOut) [ ⟨1, 2, 3⟩, ⟨4, 5, 6⟩ ]).2.2 = [] :=
  c7_zone_count_mismatch_rejected (initCtrl none) (fun _ => ProcOutcome.timedOut)
    [ ⟨1, 2, 3⟩, ⟨4, 5, 6⟩ ] (by decide)

/-- Claim C4: with only the tool-mediated method available
(`ectool_available` true, both direct-access flags false) and the preference
set to `ec_direct`, re-evaluating the active method falls back to `ectool`,
and `get_hardware_info` reports preferred `ec_direct` together with active
`ectool`. -/
theorem c4_preference_fallback (s : Ctrl)
    (h1 : s.ectool_available = true) (h2 : s.ec_direct_available = false)
    (h3 : s.capabilities.ec_direct_access_ok = false)
    (h4 : s.preferred_control_method = some "ec_direct") :
    (updateActiveMethodBasedOnPreference s).active_control_method = "ectool" ∧
    (getHardwareInfo (updateActiveMethodBasedOnPreference s)).preferred_control_method
      = some "ec_direct" ∧
    (getHardwareInfo (updateActiveMethodBasedOnPreference s)).active_control_method = "ectool" := by
  simp [updateActiveMethodBasedOnPreference, getHardwareInfo, h1, h2, h3, h4]

/-- Witness for C4 at a concrete controller state. -/
theorem c4_preference_fallback_witness :
    (updateActiveMethodBasedOnPreference
        { initCtrl (some "ec_direct") with ectool_available := true }).active_control_method
      = "ectool" ∧
    (getHardwareInfo (updateActiveMethodBasedOnPreference
        { initCtrl (some "ec_direct") with ectool_available := true })).preferred_control_method
      = some "ec_direct" ∧
    (getHardwareInfo (updateActiveMethodBasedOnPreference
        { initCtrl (some "ec_direct") with ectool_available := true })).active_control_method
      = "ectool" :=
  c4_preference_fallback { initCtrl (some "ec_direct") with ectool_available := true }
    rfl rfl rfl rfl

/-- Claim C5 (code bug): `RGBColor(float('inf'), 0, 0)` does not complete:
`int(float('inf'))` raises `OverflowError`, which `_validate_component`
catches nowhere (its handler lists only `ValueError` and `TypeError`), so the
exception propagates out of construction instead of the documented
default-to-0 behavior. -/
theorem c5_construction_raises_on_infinite_float :
    mkRGBColor (.float .inf) (.int 0) (.int 0) = .error .overflowError := rfl

/-- Claim C8: an external command whose process completes with a non-zero
exit code yields a structured failure: `_run_ectool_cmd_internal` returns
`(False, stdout, stderr)` with the captured (stripped) stderr and no raised
exception, and `run_command` with `check=False` likewise returns the completed
result rather than raising. -/
theorem c8_nonzero_exit_structured_failure (s : Ctrl) (env : HWEnv) (args : List String)
    (rc : ℤ) (out err : String)
    (hp : s.capabilities.ectool_present = true)
    (ho : env (ectoolExecutable :: args) = .completed rc out err)
    (hrc : rc ≠ 0)
    (cmd : List String) (hne : cmd.isEmpty = false)
    (hblank : cmd.any (fun a => pyStrip a = "") = false) :
    runEctoolCmdInternal s env args
      = ((false, pyStrip out, pyStrip err), s, [ ectoolExecutable :: args ]) ∧
    runCommand cmd (.completed rc out err) false = .ok ⟨rc, out, err⟩ := by
  constructor
  · simp [runEctoolCmdInternal, hp, ho, hrc]
  · simp [runCommand, hne, hblank]

theorem detectEcDirect_ectool (s : Ctrl) :
    (detectEcDirect s).ectool_available = s.ectool_available := by
  unfold detectEcDirect
  dsimp only
  split <;> rfl

theorem detectEcDirect_false (s : Ctrl) (h : s.ectool_available = false) :
    detectEcDirect s
      = { s with ec_direct_available := false,
                 capabilities := { s.capabilities with ec_direct_access_ok := false } } := by
  simp [detectEcDirect, h]

theorem updateActive_none (s : Ctrl) (h1 : s.ectool_available = false)
    (h2 : s.ec_direct_available = false) (h3 : s.capabilities.ec_direct_access_ok = false) :
    updateActiveMethodBasedOnPreference s
      = { s with active_control_method := "none", hardware_ready := false } := by
  unfold updateActiveMethodBasedOnPreference
  simp [h1, h2, h3]

theorem setBrightness_no_method (s : Ctrl) (env : HWEnv) (n : ℤ)
    (h : s.active_control_method = "none") :
    setBrightness s env n = (false, s, []) := by
  simp [setBrightness, h]

/-- Claim C6: whenever detection completes with no usable control method
(`ectool_available` false, which forces both direct-access flags false and the
active method `"none"`), the controller is not operational, `set_brightness(50)`
returns `False` without any argv vector reaching `subprocess.run`, and
`get_hardware_info` reports the active control method as `"none"`. -/
theorem c6_no_method_noop (pref : Option String) (env : HWEnv) (present : Bool)
    (h : (performHardwareDetection (initCtrl pref) env present).ectool_available = false) :
    isOperational (performHardwareDetection (initCtrl pref) env present) = false ∧
    setBrightness (performHardwareDetection (initCtrl pref) env present) env 50
      = (false, performHardwareDetection (initCtrl pref) env present, []) ∧
    (getHardwareInfo (performHardwareDetection (initCtrl pref) env present)).active_control_method
      = "none" := by
  have h1 : (detectEctool (initCtrl pref) env present).ectool_available = false := by
    have h' : (detectEcDirect (detectEctool (initCtrl pref) env present)).ectool_available
        = false := h
    rwa [detectEcDirect_ectool] at h'
  have hd := detectEcDirect_false _ h1
  have h1' : (detectEcDirect (detectEctool (initCtrl pref) env present)).ectool_available
      = false := by rw [detectEcDirect_ectool]; exact h1
  have h2 : (detectEcDirect (detectEctool (initCtrl pref) env present)).ec_direct_available
      = false := by rw [hd]
  have h3 : (detectEcDirect
      (detectEctool (initCtrl pref) env present)).capabilities.ec_direct_access_ok = false := by
    rw [hd]
  have hupd := updateActive_none _ h1' h2 h3
  have hfin : performHardwareDetection (initCtrl pref) env present
      = { detectEcDirect (detectEctool (initCtrl pref) env present) with
          active_control_method := "none", hardware_ready := false,
          detection_complete := true } := by
    show ({ updateActiveMethodBasedOnPreference
              (detectEcDirect (detectEctool (initCtrl pref) env present)) with
            detection_complete := true } : Ctrl) = _
    rw [hupd]
  refine ⟨?_, ?_, ?_⟩
  · rw [hfin]; rfl
  · rw [hfin]; exact setBrightness_no_method _ env 50 rfl
  · rw [hfin]; rfl

/-- Witness for C6: a missing tool binary and a dead environment. -/
theorem c6_no_method_noop_witness :
    isOperational
        (performHardwareDetection (initCtrl (some "ectool")) (fun _ => ProcOutcome.timedOut) false)
      = false ∧
    setBrightness
        (performHardwareDetection (initCtrl (some "ectool")) (fun _ => ProcOutcome.timedOut) false)
        (fun _ => ProcOutcome.timedOut) 50
      = (false,
         performHardwareDetection (initCtrl (some "ectool")) (fun _ => ProcOutcome.timedOut) false,
         []) ∧
    (getHardwareInfo
        (performHardwareDetection (initCtrl (some "ectool")) (fun _ => ProcOutcome.timedOut) false)
      ).active_control_method = "none" :=
  c6_no_method_noop (some "ectool") (fun _ => ProcOutcome.timedOut) false (by decide)

/-- Invariant used for the amended C2: no leaked loop thread, and any tracked
loop thread responds to the stop signal within the join timeout. -/
def MgrInv (m : MgrState) : Prop :=
  m.leaked = [] ∧ ∀ t, m.effect_thread = some t → t.exitDelay ≤ joinTimeout

theorem stopCurrentEffect_inv (m : MgrState) (hm : MgrInv m) :
    MgrInv (stopCurrentEffect m) := by
  obtain ⟨hleak, htr⟩ := hm
  unfold stopCurrentEffect
  cases hth : m.effect_thread with
  | none => exact ⟨hleak, htr⟩
  | some t =>
      have hde := htr t hth
      refine ⟨?_, ?_⟩
      · simp [hde, hleak]
      · intro t' ht'
        simp [hde] at ht'

theorem applyMgrOp_inv (m : MgrState) (op : MgrOp) (hm : MgrInv m)
    (hop : ∀ t, op = .start t → t.exitDelay ≤ joinTimeout) :
    MgrInv (applyMgrOp m op) := by
  cases op with
  | stop => exact stopCurrentEffect_inv m hm
  | start t =>
      have hs := stopCurrentEffect_inv m hm
      refine ⟨hs.1, ?_⟩
      intro t' ht'
      have ht : t = t' := by simpa [applyMgrOp, startEffect] using ht'
      subst ht
      exact hop t rfl

theorem runMgrOps_inv (ops : List MgrOp) :
    ∀ m, MgrInv m → (∀ t, MgrOp.start t ∈ ops → t.exitDelay ≤ joinTimeout) →
      MgrInv (runMgrOps m ops) := by
  induction ops with
  | nil => intro m hm _; exact hm
  | cons op rest ih =>
      intro m hm hops
      apply ih
      · exact applyMgrOp_inv m op hm (fun t ht => hops t (by simp [ht]))
      · intro t ht; exact hops t (List.mem_cons_of_mem _ ht)

/-- Claim C2 counterexample: starting from an idle manager, start an effect
whose loop thread needs 3 seconds to observe the stop signal, then start a
second effect.  `stop_current_effect` joins for at most 2 seconds, logs the
failed join and proceeds, so right after the second start two animation loop
threads are alive. -/
theorem c2_join_timeout_two_threads_alive :
    1 < aliveThreads (startEffect (startEffect initMgr ⟨3⟩) ⟨1⟩) := by decide

/-- Claim C2 amended: at most one animation loop thread is alive at any time
provided every started loop thread exits within the 2-second join timeout
after the stop signal; a thread that outlives the join timeout is abandoned
by `stop_current_effect` and violates the invariant (see the
counterexample). -/
theorem c2_single_thread_when_joins_complete (ops : List MgrOp)
    (h : ∀ t, MgrOp.start t ∈ ops → t.exitDelay ≤ joinTimeout) :
    (runMgrOps initMgr ops).leaked = [] ∧ aliveThreads (runMgrOps initMgr ops) ≤ 1 := by
  have hinv : MgrInv (runMgrOps initMgr ops) :=
    runMgrOps_inv ops initMgr ⟨rfl, by intro t ht; cases ht⟩ h
  refine ⟨hinv.1, ?_⟩
  unfold aliveThreads
  rw [hinv.1]
  cases (runMgrOps initMgr ops).effect_thread <;> simp

/-- Witness for the amended C2 on a concrete request sequence whose loop
threads all stop within the join timeout. -/
theorem c2_single_thread_when_joins_complete_witness :
    (runMgrOps initMgr [ MgrOp.start ⟨1⟩, MgrOp.start ⟨2⟩, MgrOp.stop ]).leaked = [] ∧
    aliveThreads (runMgrOps initMgr [ MgrOp.start ⟨1⟩, MgrOp.start ⟨2⟩, MgrOp.stop ]) ≤ 1 := by
  apply c2_single_thread_when_joins_complete
  intro t ht
  simp only [List.mem_cons, List.not_mem_nil, or_false] at ht
  rcases ht with h | h | h
  · cases h; decide
  · cases h; decide
  · cases h

/-- Claim C1 counterexample: a controller whose tool is present, six
consecutive dispatches through `_run_ectool_cmd_internal`, the first five
failing with exit code 1 (reaching `CIRCUIT_BREAKER_THRESHOLD = 5`).  The
sixth dispatch still sends its command to `subprocess.run` (one argv vector
reaches the executor) and even succeeds, so no breaker short-circuits the
hardware dispatch path. -/
theorem c1_dispatch_never_short_circuits :
    runDispatches
        { initCtrl none with capabilities := { Capabilities.initial with ectool_present := true } }
        [ "pwmsetkblight", "50" ]
        [ fun _ => .completed 1 "" "fail", fun _ => .completed 1 "" "fail",
          fun _ => .completed 1 "" "fail", fun _ => .completed 1 "" "fail",
          fun _ => .completed 1 "" "fail", fun _ => .completed 0 "" "" ]
      = ({ initCtrl none with capabilities := { Capabilities.initial with ectool_present := true } },
         [ (false, 1), (false, 1), (false, 1), (false, 1), (false, 1), (true, 1) ]) := by
  decide

/-- Claim C1 amended: the `CircuitBreaker` decorator class does implement
open/cooldown/reset semantics — while open and inside the recovery window a
wrapped call raises without invoking the function, a failure that reaches the
threshold opens the breaker and re-raises, and one success resets the counter
and closes it — but it is not applied to the hardware dispatch path:
`_run_ectool_cmd_internal` invokes the Command Executor on every call with
the tool present, regardless of any history of consecutive failures. -/
theorem c1_breaker_semantics_but_unwired (cb : CircuitBreaker) (now : ℚ) (f : CallOutcome) :
    (cb.is_open = true → now - cb.last_failure_time ≤ cb.recovery_timeout →
      cbCall cb now f = ⟨.rejected, false, cb⟩) ∧
    (cb.is_open = false → f = .failure → cb.failure_threshold ≤ cb.failure_count + 1 →
      (cbCall cb now f).state.is_open = true ∧ (cbCall cb now f).result = .raised) ∧
    (cb.is_open = false → f = .success →
      (cbCall cb now f).state.failure_count = 0 ∧ (cbCall cb now f).state.is_open = false) ∧
    (∀ (s : Ctrl) (env : HWEnv) (args : List String),
      s.capabilities.ectool_present = true →
      (runEctoolCmdInternal s env args).2.2 = [ ectoolExecutable :: args ]) := by
  refine ⟨?_, ?_, ?_, ?_⟩
  · intro hopen hwin
    simp [cbCall, hopen, not_lt.mpr hwin]
  · intro hclosed hf hth
    subst hf
    simp [cbCall, cbInvoke, hclosed, hth]
  · intro hclosed hf
    subst hf
    simp [cbCall, cbInvoke, hclosed]
  · intro s env args hp
    unfold runEctoolCmdInternal
    cases hE : env (ectoolExecutable :: args) <;> simp [hp, hE]

/-- Witness for the amended C1: an open breaker 10 seconds into a 30-second
window rejects without invoking, and a present-tool dispatch reaches the
executor. -/
theorem c1_breaker_semantics_but_unwired_witness :
    cbCall ⟨5, 30, 5, 0, true⟩ 10 .failure = ⟨.rejected, false, ⟨5, 30, 5, 0, true⟩⟩ ∧
    (runEctoolCmdInternal
        { initCtrl none with capabilities := { Capabilities.initial with ectool_present := true } }
        (fun _ => ProcOutcome.timedOut) [ "version" ]).2.2
      = [ ectoolExecutable :: [ "version" ] ] := by
  have h := c1_breaker_semantics_but_unwired ⟨5, 30, 5, 0, true⟩ 10 .failure
  exact ⟨h.1 rfl (by norm_num),
         h.2.2.2
           { initCtrl none with capabilities := { Capabilities.initial with ectool_present := true } }
           (fun _ => ProcOutcome.timedOut) [ "version" ] rfl⟩

theorem runEctool_success_state (s : Ctrl) (env : HWEnv) (args : List String)
    (h : (runEctoolCmdInternal s env args).1.1 = true) :
    (runEctoolCmdInternal s env args).2.1 = s := by
  by_cases hp : s.capabilities.ectool_present = false
  · simp [runEctoolCmdInternal, hp] at h
  · cases hE : env (ectoolExecutable :: args) <;>
      simp [runEctoolCmdInternal, hp, hE] at h ⊢

theorem runEctool_preserves (s : Ctrl) (env : HWEnv) (args : List String) :
    (runEctoolCmdInternal s env args).2.1.zone_colors_cache = s.zone_colors_cache ∧
    (runEctoolCmdInternal s env args).2.1.active_control_method = s.active_control_method := by
  by_cases hp : s.capabilities.ectool_present = false
  · simp [runEctoolCmdInternal, hp]
  · cases hE : env (ectoolExecutable :: args) <;> simp [runEctoolCmdInternal, hp, hE]

theorem setZoneColor_success (s : Ctrl) (env : HWEnv) (z : ℤ) (c : RGBColor)
    (h : (setZoneColor s env z c).1 = true) :
    (setZoneColor s env z c).2.1
      = { s with zone_colors_cache := s.zone_colors_cache.set (z - 1).toNat c } := by
  have hzt : (z - 1).toNat = z.toNat - 1 := by omega
  unfold setZoneColor at h ⊢
  rw [hzt] at h ⊢
  by_cases hz : 1 ≤ z ∧ z ≤ (NUM_ZONES : ℤ)
  · by_cases ha : s.active_control_method = "ectool"
    · by_cases hc : s.capabilities.ectool_rgbkbd_functional = false
      · simp [hz, ha, hc] at h
      · rcases hE : runEctoolCmdInternal s env (zoneArgs (z.toNat - 1) c)
          with ⟨⟨ok, out, err⟩, s1, log⟩
        have hok : ok = true := by simpa [hz, ha, hc, hE] using h
        have hs1 : s1 = s := by
          have hh := runEctool_success_state s env (zoneArgs (z.toNat - 1) c)
            (by rw [hE]; exact hok)
          rw [hE] at hh; exact hh
        simp [hz, ha, hc, hE, hok, hs1]
    · by_cases hd : s.active_control_method = "ec_direct"
      · rcases hE : ecDirectSetZoneColor s env (z.toNat - 1) c with ⟨⟨ok, out, err⟩, s1, log⟩
        have hE' : runEctoolCmdInternal s env (zoneArgs (z.toNat - 1) c)
            = ((ok, out, err), s1, log) := hE
        have hok : ok = true := by simpa [hz, ha, hd, hE] using h
        have hs1 : s1 = s := by
          have hh := runEctool_success_state s env (zoneArgs (z.toNat - 1) c)
            (by rw [hE']; exact hok)
          rw [hE'] at hh; exact hh
        simp [hz, ha, hd, hE, hok, hs1]
      · simp [hz, ha, hd] at h
  · simp [hz] at h

/-- Cache positions `i, i+1, ...` overwritten in order with the given colors,
the effect of a fully successful `set_zone_colors` loop. -/
def overwriteFrom (cache : List RGBColor) (i : ℕ) : List RGBColor → List RGBColor
  | [] => cache
  | c :: rest => overwriteFrom (cache.set i c) (i + 1) rest

theorem setZoneColorsLoop_success (cs : List RGBColor) :
    ∀ (s : Ctrl) (env : HWEnv) (i : ℕ), (setZoneColorsLoop s env i cs).1 = true →
      (setZoneColorsLoop s env i cs).2.1
        = { s with zone_colors_cache := overwriteFrom s.zone_colors_cache i cs } := by
  induction cs with
  | nil => intro s env i _; rfl
  | cons c rest ih =>
      intro s env i h
      rcases hZ : setZoneColor s env ((i : ℤ) + 1) c with ⟨ok1, s1, l1⟩
      rcases hL : setZoneColorsLoop s1 env (i + 1) rest with ⟨okr, s2, l2⟩
      simp only [setZoneColorsLoop, hZ, hL] at h ⊢
      obtain ⟨hok1, hokr⟩ : ok1 = true ∧ okr = true := by simpa using h
      have hs1 : s1 = { s with zone_colors_cache := s.zone_colors_cache.set i c } := by
        have hh := setZoneColor_success s env ((i : ℤ) + 1) c (by rw [hZ]; exact hok1)
        rw [hZ] at hh
        have hi : ((i : ℤ) + 1 - 1).toNat = i := by omega
        rw [hi] at hh; exact hh
      have hs2 : s2
          = { s1 with zone_colors_cache := overwriteFrom s1.zone_colors_cache (i + 1) rest } := by
        have hh := ih s1 env (i + 1) (by rw [hL]; exact hokr)
        rw [hL] at hh; exact hh
      rw [hs2, hs1]
      rfl

theorem overwriteFrom_replicate (c : RGBColor) (cache : List RGBColor)
    (h : cache.length = 4) :
    overwriteFrom cache 0 (List.replicate 4 c) = List.replicate 4 c := by
  match cache, h with
  | [a, b, d, e], _ => rfl

theorem setZoneColors_success_state (s : Ctrl) (env : HWEnv) (cs : List RGBColor)
    (h : (setZoneColors s env cs).1 = true) :
    (setZoneColors s env cs).2.1
      = { s with zone_colors_cache := overwriteFrom s.zone_colors_cache 0 cs } := by
  unfold setZoneColors at h ⊢
  by_cases hl : cs.length ≠ NUM_ZONES
  · simp [hl] at h
  · rw [if_neg hl] at h ⊢
    exact setZoneColorsLoop_success cs s env 0 h

theorem setAllLeds_success_cache (s : Ctrl) (env : HWEnv) (c : RGBColor)
    (hlen : s.zone_colors_cache.length = 4)
    (h : (setAllLedsColor s env c).1 = true) :
    (setAllLedsColor s env c).2.1.zone_colors_cache = List.replicate 4 c := by
  unfold setAllLedsColor at h ⊢
  by_cases ha : s.active_control_method = "ectool"
  · by_cases hc : s.capabilities.ectool_rgbkbd_clear_functional = true
    · rcases hE : runEctoolCmdInternal s env [ "rgbkbd", "clear", toString (packedColor c) ]
        with ⟨⟨ok, out, err⟩, s1, l1⟩
      by_cases hok : ok = true
      · simp [ha, hc, hE, hok, NUM_ZONES]
      · have hok' : ok = false := by cases ok with | false => rfl | true => exact absurd rfl hok
        rcases hS : setZoneColors s1 env (List.replicate NUM_ZONES c) with ⟨r, s2, l2⟩
        simp only [ha, hc, hE, hS, hok', if_true, if_false, ite_true, ite_false,
          Bool.false_eq_true] at h ⊢
        have hcache1 : s1.zone_colors_cache = s.zone_colors_cache := by
          have hh := (runEctool_preserves s env
            [ "rgbkbd", "clear", toString (packedColor c) ]).1
          rw [hE] at hh; exact hh
        have hs2 := setZoneColors_success_state s1 env (List.replicate NUM_ZONES c)
          (by rw [hS]; exact h)
        rw [hS] at hs2
        dsimp only at hs2
        rw [hs2]
        show overwriteFrom s1.zone_colors_cache 0 (List.replicate 4 c) = List.replicate 4 c
        exact overwriteFrom_replicate c _ (by rw [hcache1]; exact hlen)
    · rcases hS : setZoneColors s env (List.replicate NUM_ZONES c) with ⟨r, s2, l2⟩
      simp only [ha, hc, hS, if_true, if_false, ite_true, ite_false] at h ⊢
      have hs2 := setZoneColors_success_state s env (List.replicate NUM_ZONES c)
        (by rw [hS]; exact h)
      rw [hS] at hs2
      dsimp only at hs2
      rw [hs2]
      exact overwriteFrom_replicate c _ hlen
  · by_cases hd : s.active_control_method = "ec_direct"
    · rcases hE : ecDirectSetAllLedsColor s env c with ⟨⟨ok, out, err⟩, s1, l1⟩
      have hok : ok = true := by simpa [ha, hd, hE] using h
      simp [ha, hd, hE, hok, NUM_ZONES]
    · simp [ha, hd] at h

/-- Claim C3 amended: after `attempt_stop_hardware_effects` returns `True`
with the tool-mediated (`ectool`) method active, the cached zone colors read
back as all-black; with the direct method active the cache is bypassed (see
the counterexample). -/
theorem c3_stop_blackout_cache_ectool (s : Ctrl) (env : HWEnv)
    (hact : s.active_control_method = "ectool")
    (hlen : s.zone_colors_cache.length = 4)
    (h : (attemptStopHardwareEffects s env).1 = true) :
    (attemptStopHardwareEffects s env).2.1.zone_colors_cache
      = List.replicate 4 ⟨0, 0, 0⟩ := by
  unfold attemptStopHardwareEffects at h ⊢
  by_cases hdemo : s.capabilities.ectool_rgbkbd_demo_off_functional = true
  · rcases hE : runEctoolCmdInternal s env [ "rgbkbd", "demo", "0" ] with ⟨⟨ok, out, err⟩, s1, l1⟩
    rcases hC : clearAllLeds s1 env with ⟨r, s2, l2⟩
    simp only [hact, hdemo, hE, hC, if_true, if_false, ite_true, ite_false] at h ⊢
    have hcache1 : s1.zone_colors_cache = s.zone_colors_cache := by
      have hh := (runEctool_preserves s env [ "rgbkbd", "demo", "0" ]).1
      rw [hE] at hh; exact hh
    have hs2 := setAllLeds_success_cache s1 env ⟨0, 0, 0⟩
      (by rw [hcache1]; exact hlen) (by rw [show setAllLedsColor s1 env ⟨0, 0, 0⟩
        = clearAllLeds s1 env from rfl, hC]; exact h)
    rw [show setAllLedsColor s1 env ⟨0, 0, 0⟩ = clearAllLeds s1 env from rfl, hC] at hs2
    exact hs2
  · rcases hC : clearAllLeds s env with ⟨r, s2, l2⟩
    simp only [hact, hdemo, hC, if_true, if_false, ite_true, ite_false] at h ⊢
    have hs2 := setAllLeds_success_cache s env ⟨0, 0, 0⟩ hlen
      (by rw [show setAllLedsColor s env ⟨0, 0, 0⟩ = clearAllLeds s env from rfl, hC]; exact h)
    rw [show setAllLedsColor s env ⟨0, 0, 0⟩ = clearAllLeds s env from rfl, hC] at hs2
    exact hs2

/-- An environment in which every external command succeeds with empty
output. -/
def envAllOk : HWEnv := fun _ => ProcOutcome.completed 0 "" ""

/-- Pure red. -/
def redColor : RGBColor := ⟨255, 0, 0⟩

/-- A fully capable controller using the direct method whose cache currently
holds red in every zone. -/
def sRedDirect : Ctrl where
  ectool_available := true
  ec_direct_available := true
  hardware_ready := true
  detection_complete := true
  preferred_control_method := some "ec_direct"
  active_control_method := "ec_direct"
  capabilities := ⟨true, true, true, true, true, true, true, true⟩
  current_brightness := 100
  zone_colors_cache := List.replicate 4 redColor

/-- The same controller but with the tool-mediated method active. -/
def sRedEctool : Ctrl := { sRedDirect with active_control_method := "ectool" }

/-- Claim C3 counterexample: with the direct method active and every command
succeeding, `attempt_stop_hardware_effects` returns `True` yet the cached zone
colors still read back as red, not black — the `ec_direct` stop path calls the
raw `_ec_direct_set_all_leds_color` wrapper, which never updates the cache. -/
theorem c3_direct_stop_leaves_cache :
    (attemptStopHardwareEffects sRedDirect envAllOk).1 = true ∧
    (attemptStopHardwareEffects sRedDirect envAllOk).2.1.zone_colors_cache
      = List.replicate 4 redColor ∧
    redColor ≠ (⟨0, 0, 0⟩ : RGBColor) := by decide

/-- Witness for the amended C3 at a concrete ectool-active controller. -/
theorem c3_stop_blackout_cache_ectool_witness :
    (attemptStopHardwareEffects sRedEctool envAllOk).2.1.zone_colors_cache
      = List.replicate 4 ⟨0, 0, 0⟩ :=
  c3_stop_blackout_cache_ectool sRedEctool envAllOk rfl (by decide) (by decide)

theorem hexDigit_facts : ∀ k : ℕ, k < 16 →
    Char.toLower (hexDigit k) = hexDigit k ∧ hexDigitVal (hexDigit k) = some k ∧
    ((hexDigit k) == '#') = false := by decide

theorem fromHexData_toHex (a b c : ℕ) (ha : a < 256) (hb : b < 256) (hc : c < 256) :
    fromHexData ('#' :: (byteHex a ++ byteHex b ++ byteHex c))
      = ⟨(a : ℤ), (b : ℤ), (c : ℤ)⟩ := by
  obtain ⟨ta1, va1, na1⟩ := hexDigit_facts (a / 16) (by omega)
  obtain ⟨ta2, va2, na2⟩ := hexDigit_facts (a % 16) (by omega)
  obtain ⟨tb1, vb1, nb1⟩ := hexDigit_facts (b / 16) (by omega)
  obtain ⟨tb2, vb2, nb2⟩ := hexDigit_facts (b % 16) (by omega)
  obtain ⟨tc1, vc1, nc1⟩ := hexDigit_facts (c / 16) (by omega)
  obtain ⟨tc2, vc2, nc2⟩ := hexDigit_facts (c % 16) (by omega)
  simp only [fromHexData, byteHex, List.append_eq, List.cons_append, List.singleton_append,
    List.nil_append, List.dropWhile, beq_self_eq_true, na1, ta1, va1, ta2, va2, tb1, vb1,
    tb2, vb2, tc1, vc1, tc2, vc2, List.map_cons, List.map_nil, List.length_cons,
    List.length_nil]
  norm_num
  simp only [va1, va2, vb1, vb2, vc1, vc2, RGBColor.mk.injEq, clampByte]
  refine ⟨?_, ?_, ?_⟩ <;> omega

/-- Claim C10: for a validated color (integer channels in `[0, 255]`),
`RGBColor.from_hex (c.to_hex())` returns a channel-wise equal color. -/
theorem c10_hex_roundtrip (c : RGBColor) (hr0 : 0 ≤ c.r) (hr1 : c.r ≤ 255)
    (hg0 : 0 ≤ c.g) (hg1 : c.g ≤ 255) (hb0 : 0 ≤ c.b) (hb1 : c.b ≤ 255) :
    fromHex (toHex c) = c := by
  obtain ⟨r, g, b⟩ := c
  simp only at hr0 hr1 hg0 hg1 hb0 hb1
  have h1 : fromHex (toHex ⟨r, g, b⟩)
      = fromHexData ('#' :: (byteHex r.toNat ++ byteHex g.toNat ++ byteHex b.toNat)) := rfl
  rw [h1, fromHexData_toHex r.toNat g.toNat b.toNat (by omega) (by omega) (by omega)]
  simp only [RGBColor.mk.injEq]
  refine ⟨?_, ?_, ?_⟩ <;> omega

/-- Witness for C10 at the color `#ff0080`. -/
theorem c10_hex_roundtrip_witness :
    fromHex (toHex ⟨255, 0, 128⟩) = (⟨255, 0, 128⟩ : RGBColor) :=
  c10_hex_roundtrip ⟨255, 0, 128⟩ (by decide) (by decide) (by decide) (by decide)
    (by decide) (by decide)

/-- Witness for C8: exit code 2 with stderr captured. -/
theorem c8_nonzero_exit_structured_failure_witness :
    runEctoolCmdInternal
        { initCtrl none with capabilities := { Capabilities.initial with ectool_present := true } }
        (fun _ => ProcOutcome.completed 2 "" "boom ")
        [ "version" ]
      = ((false, "", "boom"),
         { initCtrl none with capabilities := { Capabilities.initial with ectool_present := true } },
         [ ectoolExecutable :: [ "version" ] ]) ∧
    runCommand [ "ls" ] (.completed 2 "" "boom ") false = .ok ⟨2, "", "boom "⟩ := by
  have h := c8_nonzero_exit_structured_failure
    { initCtrl none with capabilities := { Capabilities.initial with ectool_present := true } }
    (fun _ => ProcOutcome.completed 2 "" "boom ") [ "version" ] 2 "" "boom "
    rfl rfl (by decide) [ "ls" ] (by decide) (by decide)
  exact h

end RGBKbd
